import Mathlib

/-!
Verification development for the `create-atomik` project scaffolding CLI.

The development shallowly embeds the two modules of the repository:
* `src/utils/package-manager.ts` — the package-manager resolver
  (`detectPackageManager`), the install step (`installDependencies`) and the
  manifest-content generators (`generateScripts`, `generateDevDependencies`);
* `src/commands/create.ts` — the project materializer (`createProject`,
  `createProjectStructure`, `copyTemplateFiles`, `getTemplateFiles`,
  `createPackageJson`).

The filesystem is modelled as an association list from path strings to
entries (directory or file); the mutable process state (current working
directory, the `npm_config_user_agent` environment variable, which manager
executables are installed) is passed explicitly.  Effects that can fail in
the real program (filesystem errors during a creation step, the install
subprocess exiting non-zero) are modelled with explicit failure flags in a
`World` record; exception control flow (`try`/`catch`, `try`/`finally`) is
embedded as explicit branching on those flags, performing exactly the
writes the source performs before the point of failure.

Template file bodies (`getMainTemplate`, `getReadmeTemplate`,
`getGitignoreTemplate`, `getTsConfigTemplate`) are opaque constructors of
`FileData`: no claim depends on the template text, only on which files the
materializer writes, and the JSON serialization of the generated manifest
is modelled structurally (a `FileData.manifest` node; re-parsing it during
resolution recovers the structure, matching `JSON.stringify`/`JSON.parse`
round-tripping).
-/

namespace CreateAtomik

/-! ### String helpers

`listStartsWith l p` checks that `p` is an initial segment of `l`;
`listIncludes hay needle` is contiguous substring search, the model of
JavaScript's `String.prototype.includes`. -/

def listStartsWith : List Char → List Char → Bool
  | _, [] => true
  | [], _ :: _ => false
  | a :: as, b :: bs => a == b && listStartsWith as bs

def listIncludes : List Char → List Char → Bool
  | [], needle => needle.isEmpty
  | c :: rest, needle =>
      listStartsWith (c :: rest) needle || listIncludes rest needle

def strStarts (s pre : String) : Bool :=
  listStartsWith s.data pre.data

def strIncludes (hay needle : String) : Bool :=
  listIncludes hay.data needle.data

/-- Model of `path.join(a, b)` for the relative paths the tool builds. -/
def pathJoin (a b : String) : String := a ++ "/" ++ b

/-- Characters before the first `@`. -/
def takeUntilAt : List Char → List Char
  | [] => []
  | c :: rest => if c = '@' then [] else c :: takeUntilAt rest

/-- Model of `s.split('@')[0]`: the part of `s` before its first `@` (all
of `s` when it has none). -/
def splitFirstAt (s : String) : String := String.mk (takeUntilAt s.data)

/-- Characters strictly before the last slash, or `none` when no slash
occurs.  Used to model `path.dirname`. -/
def dirnameData : List Char → Option (List Char)
  | [] => none
  | c :: rest =>
      match dirnameData rest with
      | some d => some (c :: d)
      | none => if c = '/' then some [] else none

/-- Model of `path.dirname` on the relative paths the tool builds
(`path.dirname "demo/README.md" = "demo"`). -/
def dirname (p : String) : String :=
  match dirnameData p.data with
  | some d => String.mk d
  | none => "."

/-! ### Data model: package-manager descriptors -/

/-- `PackageManager` interface of `src/utils/package-manager.ts`. -/
structure PackageManager where
  name : String
  installCommand : String
  runCommand : String
  lockFile : String
  configFile : Option String
deriving DecidableEq, Repr

def npm : PackageManager :=
  { name := "npm"
    installCommand := "npm install"
    runCommand := "npm run"
    lockFile := "package-lock.json"
    configFile := none }

def pnpm : PackageManager :=
  { name := "pnpm"
    installCommand := "pnpm install"
    runCommand := "pnpm"
    lockFile := "pnpm-lock.yaml"
    configFile := some ".pnpmrc" }

def yarn : PackageManager :=
  { name := "yarn"
    installCommand := "yarn install"
    runCommand := "yarn"
    lockFile := "yarn.lock"
    configFile := some ".yarnrc.yml" }

def bun : PackageManager :=
  { name := "bun"
    installCommand := "bun install"
    runCommand := "bun run"
    lockFile := "bun.lockb"
    configFile := none }

/-- The `PACKAGE_MANAGERS` record, as its `Object.entries` view: JavaScript
records iterate in insertion order, so the order below is the iteration
order of every `for … of Object.entries(PACKAGE_MANAGERS)` loop in the
source. -/
def PACKAGE_MANAGERS : List (String × PackageManager) :=
  [("npm", npm), ("pnpm", pnpm), ("yarn", yarn), ("bun", bun)]

/-- The four descriptors, the closed set resolution draws from. -/
def validDescriptors : List PackageManager := [npm, pnpm, yarn, bun]

/-! ### Data model: filesystem, manifest and process state -/

/-- Script and dependency maps of the generated manifest are association
lists in object-literal order. -/
abbrev StrMap := List (String × String)

/-- The generated `package.json` object built by `createPackageJson`. -/
structure PackageJson where
  name : String
  version : String
  description : String
  main : String
  scripts : StrMap
  keywords : List String
  author : String
  license : String
  dependencies : StrMap
  devDependencies : StrMap
  packageManager : Option String
deriving DecidableEq, Repr

/-- Contents of a file on disk.  The four template bodies are opaque (no
claim concerns their text); `manifest` is a structurally stored
`JSON.stringify` of a generated manifest, and `text` stands for any other
file content (including content that does not parse as a manifest). -/
inductive FileData where
  | mainTemplate (isTS : Bool)
  | readmeTemplate
  | gitignoreTemplate
  | tsconfigTemplate
  | manifest (pj : PackageJson)
  | text (s : String)
deriving DecidableEq, Repr

inductive FsEntryData where
  | dir
  | file (d : FileData)
deriving DecidableEq, Repr

/-- A filesystem snapshot: an association list from paths to entries. -/
structure Fs where
  entries : List (String × FsEntryData)
deriving DecidableEq, Repr

/-- Process-wide state read by the resolver and mutated by the install
step: the current working directory, the `npm_config_user_agent`
environment variable, and the set of manager names whose
`<name> --version` probe subprocess succeeds. -/
structure SysEnv where
  cwd : String
  userAgent : Option String
  available : List String
deriving DecidableEq, Repr

/-- Observable process events: working-directory changes and blocking
subprocess invocations (`execSync`), recording the command, the working
directory it runs in, and whether it succeeded. -/
inductive Event where
  | chdir (d : String)
  | exec (cmd : String) (cwd : String) (ok : Bool)
deriving DecidableEq, Repr

/-! ### Filesystem operations -/

/-- `fs.existsSync`. -/
def existsSync (fs : Fs) (p : String) : Bool :=
  fs.entries.any (fun e => e.1 == p)

/-- `fs.mkdirSync(p, { recursive: true })`: no-op when the path exists,
otherwise records the directory.  (In every call site of the source the
parent already exists, so only the leaf needs recording.) -/
def mkdirSync (fs : Fs) (p : String) : Fs :=
  if existsSync fs p then fs else ⟨fs.entries ++ [(p, .dir)]⟩

/-- `fs.writeFileSync`: create or overwrite. -/
def writeFileSync (fs : Fs) (p : String) (d : FileData) : Fs :=
  ⟨fs.entries.filter (fun e => e.1 != p) ++ [(p, .file d)]⟩

/-- `fs.readFileSync` (as seen through `JSON.parse`): the stored data of a
file, `none` when the path is missing or is a directory. -/
def readFile (fs : Fs) (p : String) : Option FileData :=
  fs.entries.findSome? (fun e =>
    if e.1 == p then
      match e.2 with
      | .file d => some d
      | .dir => none
    else none)

/-- `fs.rmSync(p, { recursive: true, force: true })`: removes the path and
everything below it. -/
def rmSync (fs : Fs) (p : String) : Fs :=
  ⟨fs.entries.filter (fun e => !(e.1 == p || strStarts e.1 (p ++ "/")))⟩

/-- A path equal to `name` or strictly inside the `name` directory. -/
def underPath (name p : String) : Bool :=
  p == name || strStarts p (name ++ "/")

/-- A starting filesystem is clean for `name` when no entry collides with
the project path or anything below it. -/
def cleanFor (fs : Fs) (name : String) : Prop :=
  ∀ e ∈ fs.entries, underPath name e.1 = false

/-! ### Manifest-content generators (`src/utils/package-manager.ts`) -/

/-- `generateScripts`. -/
def generateScripts (packageManager : PackageManager) (isTypeScript : Bool) :
    StrMap :=
  let baseScripts : StrMap :=
    if isTypeScript then
      [("dev", "ts-node-dev --respawn --transpile-only src/index.ts"),
       ("build", "tsc"),
       ("start", "node dist/index.js")]
    else
      [("dev", "node --watch src/index.js"),
       ("start", "node src/index.js")]
  if packageManager.name == "bun" then
    if isTypeScript then
      [("dev", "bun run --watch src/index.ts"),
       ("build", "bun build src/index.ts --outdir dist --target node"),
       ("start", "bun run dist/index.js")]
    else
      [("dev", "bun run --watch src/index.js"),
       ("start", "bun run src/index.js")]
  else baseScripts

/-- `generateDevDependencies`. -/
def generateDevDependencies (packageManager : PackageManager)
    (isTypeScript : Bool) : StrMap :=
  if !isTypeScript then []
  else
    let base : StrMap := [("@types/node", "^20.0.0"), ("typescript", "^5.0.0")]
    if packageManager.name == "bun" then base
    else base ++ [("ts-node-dev", "^2.0.0")]

/-! ### The resolver (`detectPackageManager`) -/

/-- Probe 1: the lock-file loop. -/
def lockFileProbe (fs : Fs) (workingDir : String) : Option PackageManager :=
  (PACKAGE_MANAGERS.find? (fun e =>
    existsSync fs (pathJoin workingDir e.2.lockFile))).map (fun e => e.2)

/-- Probe 2: the config-file loop. -/
def configFileProbe (fs : Fs) (workingDir : String) : Option PackageManager :=
  (PACKAGE_MANAGERS.find? (fun e =>
    match e.2.configFile with
    | some cf => existsSync fs (pathJoin workingDir cf)
    | none => false)).map (fun e => e.2)

/-- Probe 3: the `packageManager` field of `package.json`.  A missing file,
an unparseable file, a falsy field (absent or empty after JavaScript
truthiness) or an unknown manager name all yield no match; parse failures
are swallowed. -/
def manifestFieldProbe (fs : Fs) (workingDir : String) :
    Option PackageManager :=
  if existsSync fs (pathJoin workingDir "package.json") then
    match readFile fs (pathJoin workingDir "package.json") with
    | some (.manifest pj) =>
        match pj.packageManager with
        | some s =>
            if s != "" then
              (PACKAGE_MANAGERS.find? (fun e =>
                e.1 == splitFirstAt s)).map (fun e => e.2)
            else none
        | none => none
    | _ => none
  else none

/-- Probe 4: the `npm_config_user_agent` environment hint (a falsy — empty
or unset — variable is skipped). -/
def envHintProbe (sys : SysEnv) : Option PackageManager :=
  match sys.userAgent with
  | some userAgent =>
      if userAgent != "" then
        if strIncludes userAgent "pnpm" then some pnpm
        else if strIncludes userAgent "yarn" then some yarn
        else if strIncludes userAgent "bun" then some bun
        else none
      else none
  | none => none

/-- Preference order of probe 5 (`pnpm > yarn > bun > npm`). -/
def preferenceOrder : List String := ["pnpm", "yarn", "bun", "npm"]

/-- The preference loop of probe 5: first preferred name present among the
available managers. -/
def pickPreferred : List String → List (String × PackageManager) →
    Option PackageManager
  | [], _ => none
  | preferred :: rest, avail =>
      match avail.find? (fun am => am.1 == preferred) with
      | some found => some found.2
      | none => pickPreferred rest avail

/-- Probe 5: which `<name> --version` subprocesses succeed, then the
preference loop. -/
def availabilityProbe (sys : SysEnv) : Option PackageManager :=
  let availableManagers :=
    PACKAGE_MANAGERS.filter (fun e => sys.available.contains e.1)
  pickPreferred preferenceOrder availableManagers

/-- `detectPackageManager(projectPath?)`: the ordered cascade, with the
working directory defaulting to `process.cwd()`, falling back to `npm`. -/
def detectPackageManager (fs : Fs) (sys : SysEnv)
    (projectPath? : Option String) : PackageManager :=
  let workingDir := projectPath?.getD sys.cwd
  match lockFileProbe fs workingDir with
  | some pm => pm
  | none =>
    match configFileProbe fs workingDir with
    | some pm => pm
    | none =>
      match manifestFieldProbe fs workingDir with
      | some pm => pm
      | none =>
        match envHintProbe sys with
        | some pm => pm
        | none =>
          match availabilityProbe sys with
          | some pm => pm
          | none => npm

/-! ### The install step (`installDependencies`) -/

structure InstallResult where
  events : List Event
  sys : SysEnv
  raised : Bool
deriving DecidableEq, Repr

/-- `installDependencies`: `process.chdir(projectPath)`, then
`execSync(installCommand)` in a `try` whose `finally` restores the
original working directory; the subprocess failure (`installOk = false`)
re-raises after the restore. -/
def installDependencies (packageManager : PackageManager)
    (projectPath : String) (sys : SysEnv) (installOk : Bool) : InstallResult :=
  let originalCwd := sys.cwd
  let sysIn : SysEnv := { sys with cwd := projectPath }
  let sysOut : SysEnv := { sysIn with cwd := originalCwd }
  { events := [Event.chdir projectPath,
               Event.exec packageManager.installCommand sysIn.cwd installOk,
               Event.chdir originalCwd]
    sys := sysOut
    raised := !installOk }

/-! ### The materializer (`src/commands/create.ts`) -/

/-- `CreateOptions` of the `create` subcommand (`--typescript` default
true, `--javascript` opt-in). -/
structure CreateOptions where
  typescript : Bool
  javascript : Bool
deriving DecidableEq, Repr

/-- Injected environment failures: whether each fallible step of the
`try` block raises (filesystem errors for the three creation steps, a
non-zero subprocess exit for the install step, recorded as
`installOk = false`). -/
structure World where
  structureFails : Bool
  templateFails : Bool
  manifestFails : Bool
  installOk : Bool
deriving DecidableEq, Repr

/-- `getTemplateFiles`: file names (relative to the project directory) and
contents; the `tsconfig.json` entry is spread in only when `ext` is
`"ts"`. -/
def getTemplateFiles (template : String) (ext : String) :
    List (String × FileData) :=
  let isTS := ext == "ts"
  [("src/index." ++ ext, FileData.mainTemplate isTS),
   ("README.md", FileData.readmeTemplate),
   (".gitignore", FileData.gitignoreTemplate)]
  ++ (if isTS then [("tsconfig.json", FileData.tsconfigTemplate)] else [])

/-- `createProjectStructure`: the fixed subdirectory skeleton. -/
def createProjectStructure (projectPath : String) (fs : Fs) : Fs :=
  ["src", "src/routes", "src/middleware", "src/utils", "public"].foldl
    (fun acc d => mkdirSync acc (pathJoin projectPath d)) fs

/-- `copyTemplateFiles`: for each template file, `mkdirSync` of its parent
then `writeFileSync`. -/
def copyTemplateFiles (projectPath : String) (template : String)
    (useJS : Bool) (fs : Fs) : Fs :=
  let ext := if useJS then "js" else "ts"
  (getTemplateFiles template ext).foldl
    (fun acc e =>
      let fullPath := pathJoin projectPath e.1
      writeFileSync (mkdirSync acc (dirname fullPath)) fullPath e.2) fs

/-- The `packageJson` object literal of `createPackageJson`, built from
the descriptor that `createPackageJson` resolved. -/
def buildPackageJson (projectName : String)
    (packageManager : PackageManager) (options : CreateOptions) :
    PackageJson :=
  let isTS := !options.javascript
  { name := projectName
    version := "1.0.0"
    description := "A new Atomik project created with basic template"
    main := if isTS then "dist/index.js" else "src/index.js"
    scripts := generateScripts packageManager isTS
    keywords := ["atomik", "web", "framework"]
    author := ""
    license := "MIT"
    dependencies := [("atomikjs", "^1.0.0")]
    devDependencies := generateDevDependencies packageManager isTS
    packageManager :=
      if packageManager.name != "npm" then
        some (packageManager.name ++ "@latest")
      else none }

/-- `createPackageJson`: resolves the package manager itself (first
resolver call of a creation run), builds the manifest and writes it.  The
resolved descriptor is returned alongside the filesystem so the run can
account for resolver invocations. -/
def createPackageJson (projectPath projectName : String)
    (options : CreateOptions) (fs : Fs) (sys : SysEnv) :
    Fs × PackageManager :=
  let packageManager := detectPackageManager fs sys (some projectPath)
  let packageJson := buildPackageJson projectName packageManager options
  (writeFileSync fs (pathJoin projectPath "package.json")
     (FileData.manifest packageJson),
   packageManager)

/-- Outcome of the `try` block of `createProject`: the filesystem after
the writes performed before completion or failure, the descriptors
returned by the resolver calls made, the install-step events, the process
state, and whether an exception escaped the block. -/
structure TryResult where
  fs : Fs
  resolutions : List PackageManager
  events : List Event
  sys : SysEnv
  failed : Bool
deriving DecidableEq, Repr

/-- The `try` block of `createProject`: structure creation, template
emission, manifest construction (which resolves the manager a first
time), then a second resolver call and the install step. -/
def tryCreate (projectPath projectName : String) (options : CreateOptions)
    (fs : Fs) (sys : SysEnv) (w : World) : TryResult :=
  if w.structureFails then ⟨fs, [], [], sys, true⟩
  else
    let fs1 := createProjectStructure projectPath fs
    if w.templateFails then ⟨fs1, [], [], sys, true⟩
    else
      let fs2 := copyTemplateFiles projectPath "basic" options.javascript fs1
      if w.manifestFails then ⟨fs2, [], [], sys, true⟩
      else
        let r := createPackageJson projectPath projectName options fs2 sys
        let packageManager := detectPackageManager r.1 sys (some projectPath)
        let inst := installDependencies packageManager projectPath sys
          w.installOk
        ⟨r.1, [r.2, packageManager], inst.events, inst.sys, inst.raised⟩

/-- Result of a whole `createProject` run: final filesystem and process
state, the process exit code (`none` for normal completion), the
descriptors the resolver returned, and the install-step events. -/
structure RunResult where
  fs : Fs
  sys : SysEnv
  exitCode : Option Nat
  resolutions : List PackageManager
  events : List Event
deriving DecidableEq, Repr

/-- `createProject`: the existence check (`process.exit(1)` with no write
when the resolved path exists), the initial `mkdirSync`, the `try` block,
and the `catch` handler (best-effort recursive delete of the project
directory, then `process.exit(1)`).  `path.resolve(process.cwd(), name)`
is modelled as the name itself, all paths being relative to the initial
working directory. -/
def createProject (projectName : String) (options : CreateOptions)
    (fs0 : Fs) (sys : SysEnv) (w : World) : RunResult :=
  let projectPath := projectName
  if existsSync fs0 projectPath then
    ⟨fs0, sys, some 1, [], []⟩
  else
    let fs1 := mkdirSync fs0 projectPath
    let t := tryCreate projectPath projectName options fs1 sys w
    if t.failed then
      let fs2 := if existsSync t.fs projectPath then rmSync t.fs projectPath
        else t.fs
      ⟨fs2, t.sys, some 1, t.resolutions, t.events⟩
    else
      ⟨t.fs, t.sys, none, t.resolutions, t.events⟩

/-! ### Helper lemmas: strings and paths -/

theorem listStartsWith_append (x y : List Char) :
    listStartsWith (x ++ y) x = true := by
  induction x with
  | nil => cases y <;> rfl
  | cons c cs ih => simp [listStartsWith, ih]

theorem pathJoin_data (a b : String) :
    (pathJoin a b).data = a.data ++ '/' :: b.data := by
  simp [pathJoin, String.data_append]

theorem strStarts_pathJoin (a b : String) :
    strStarts (pathJoin a b) (a ++ "/") = true := by
  have h : (pathJoin a b).data = (a ++ "/").data ++ b.data := by
    simp [pathJoin, String.data_append]
  rw [strStarts, h, listStartsWith_append]

theorem pathJoin_inj {a b c : String} (h : pathJoin a b = pathJoin a c) :
    b = c := by
  have hd : (pathJoin a b).data = (pathJoin a c).data := by rw [h]
  rw [pathJoin_data, pathJoin_data] at hd
  have := List.append_cancel_left hd
  exact congrArg String.mk (List.cons.inj this).2

theorem pathJoin_ne_base (a b : String) : pathJoin a b ≠ a := by
  intro h
  have hd : (pathJoin a b).data.length = a.data.length := by rw [h]
  rw [pathJoin_data] at hd
  simp at hd

theorem pathJoin_beq_base (a b : String) : (pathJoin a b == a) = false :=
  beq_eq_false_iff_ne.mpr (pathJoin_ne_base a b)

theorem pathJoin_beq_pathJoin (a b c : String) :
    (pathJoin a b == pathJoin a c) = (b == c) := by
  by_cases h : b = c
  · subst h; simp
  · have : pathJoin a b ≠ pathJoin a c := fun hc => h (pathJoin_inj hc)
    simp [beq_eq_false_iff_ne.mpr this, beq_eq_false_iff_ne.mpr h]

theorem dirnameData_append_none {y : List Char} (hy : dirnameData y = none)
    (x : List Char) : dirnameData (x ++ '/' :: y) = some x := by
  induction x with
  | nil => simp [dirnameData, hy]
  | cons c cs ih => simp [dirnameData, ih]

theorem dirnameData_append_some {y d : List Char}
    (hy : dirnameData y = some d) (x : List Char) :
    dirnameData (x ++ '/' :: y) = some (x ++ '/' :: d) := by
  induction x with
  | nil => simp [dirnameData, hy]
  | cons c cs ih => simp [dirnameData, ih]

theorem dirname_pathJoin_flat (a : String) {b : String}
    (hb : dirnameData b.data = none) : dirname (pathJoin a b) = a := by
  rw [dirname, pathJoin_data, dirnameData_append_none hb]

theorem dirname_pathJoin_deep (a : String) {b d : String}
    (hb : dirnameData b.data = some d.data) :
    dirname (pathJoin a b) = pathJoin a d := by
  rw [dirname, pathJoin_data, dirnameData_append_some hb]
  exact congrArg String.mk (pathJoin_data a d).symm

theorem dirname_readme (a : String) : dirname (pathJoin a "README.md") = a :=
  dirname_pathJoin_flat a (by rfl)

theorem dirname_gitignore (a : String) :
    dirname (pathJoin a ".gitignore") = a :=
  dirname_pathJoin_flat a (by rfl)

theorem dirname_tsconfig (a : String) :
    dirname (pathJoin a "tsconfig.json") = a :=
  dirname_pathJoin_flat a (by rfl)

theorem dirname_index_ts (a : String) :
    dirname (pathJoin a "src/index.ts") = pathJoin a "src" :=
  dirname_pathJoin_deep a (d := "src") (by rfl)

theorem dirname_index_js (a : String) :
    dirname (pathJoin a "src/index.js") = pathJoin a "src" :=
  dirname_pathJoin_deep a (d := "src") (by rfl)

/-! ### Helper lemmas: filesystem operations -/

theorem existsSync_mem {fs : Fs} {p : String} {d : FsEntryData}
    (h : (p, d) ∈ fs.entries) : existsSync fs p = true := by
  rw [existsSync, List.any_eq_true]
  exact ⟨(p, d), h, by simp⟩

theorem existsSync_mkdir (fs : Fs) (p q : String) :
    existsSync (mkdirSync fs p) q = (existsSync fs q || q == p) := by
  by_cases hp : existsSync fs p
  · rw [mkdirSync, if_pos hp]
    by_cases hqp : q = p
    · subst hqp; simp [hp]
    · simp [beq_eq_false_iff_ne.mpr hqp]
  · rw [mkdirSync, if_neg hp]
    simp [existsSync, List.any_append, BEq.comm]

theorem any_key_write {p q : String} (hqp : q ≠ p) (d : FsEntryData)
    (l : List (String × FsEntryData)) :
    ((l.filter (fun e => e.1 != p)) ++ [(p, d)]).any (fun e => e.1 == q) =
      l.any (fun e => e.1 == q) := by
  have hpq : (p == q) = false :=
    beq_eq_false_iff_ne.mpr (fun hc => hqp hc.symm)
  induction l with
  | nil => simp [hpq]
  | cons e l ih =>
      by_cases hep : e.1 = p
      · simp [List.filter_cons, hep, hpq, ih]
      · simp [List.filter_cons, bne_iff_ne.mpr hep, ih]

theorem existsSync_write (fs : Fs) (p q : String) (d : FileData) :
    existsSync (writeFileSync fs p d) q = (existsSync fs q || q == p) := by
  by_cases hqp : q = p
  · subst hqp
    simp [existsSync, writeFileSync, List.any_append]
  · rw [writeFileSync, existsSync, existsSync]
    show ((fs.entries.filter (fun e => e.1 != p)) ++
      [(p, FsEntryData.file d)]).any (fun e => e.1 == q) = _
    rw [any_key_write hqp, beq_eq_false_iff_ne.mpr hqp, Bool.or_false]

theorem readFile_write_self (fs : Fs) (p : String) (d : FileData) :
    readFile (writeFileSync fs p d) p = some d := by
  rw [writeFileSync, readFile]
  show ((fs.entries.filter (fun e => e.1 != p)) ++
      [(p, FsEntryData.file d)]).findSome?
    (fun e => if e.1 == p then
      match e.2 with
      | .file d => some d
      | .dir => none
    else none) = some d
  induction fs.entries with
  | nil => simp [List.findSome?_cons]
  | cons e l ih =>
      by_cases hep : e.1 = p
      · simpa [List.filter_cons, show (e.1 != p) = false by simp [hep]]
          using ih
      · simp only [List.filter_cons, show (e.1 != p) = true by simp [hep],
          if_pos, List.cons_append, List.findSome?_cons,
          beq_eq_false_iff_ne.mpr hep]
        exact ih

theorem existsSync_rm_under {name p : String} (fs : Fs)
    (h : underPath name p = true) : existsSync (rmSync fs name) p = false := by
  rw [rmSync, existsSync, List.any_eq_false]
  intro e he heq
  rw [List.mem_filter] at he
  rw [beq_iff_eq] at heq
  have hkeep := he.2
  rw [heq] at hkeep
  rw [underPath] at h
  rw [h] at hkeep
  simp at hkeep

theorem existsSync_clean {fs : Fs} {name : String} (h : cleanFor fs name)
    (f : String) : existsSync fs (pathJoin name f) = false := by
  rw [existsSync, List.any_eq_false]
  intro e he heq
  rw [beq_iff_eq] at heq
  have hu := h e he
  rw [underPath, heq] at hu
  simp [strStarts_pathJoin] at hu

theorem existsSync_clean_base {fs : Fs} {name : String} (h : cleanFor fs name) :
    existsSync fs name = false := by
  rw [existsSync, List.any_eq_false]
  intro e he heq
  rw [beq_iff_eq] at heq
  have hu := h e he
  rw [underPath, heq] at hu
  simp at hu


/-! ### Helper lemmas: the resolver cascade -/

/-- The tail of the cascade shared by every resolution that reaches
probe 4: environment hint, then availability, then the `npm` fallback.
Pure abbreviation for stating lemmas; it depends only on the process
state, not on the probed directory. -/
def fallThrough (sys : SysEnv) : PackageManager :=
  match envHintProbe sys with
  | some pm => pm
  | none =>
    match availabilityProbe sys with
    | some pm => pm
    | none => npm

theorem mem_valid_of_pair {e : String × PackageManager}
    (h : e ∈ PACKAGE_MANAGERS) : e.2 ∈ validDescriptors := by
  simp only [PACKAGE_MANAGERS, List.mem_cons, List.not_mem_nil, or_false]
    at h
  rcases h with h | h | h | h <;> rw [h] <;> simp [validDescriptors]

theorem lockFileProbe_mem {fs : Fs} {wd : String} {pm : PackageManager}
    (h : lockFileProbe fs wd = some pm) : pm ∈ validDescriptors := by
  rw [lockFileProbe, Option.map_eq_some'] at h
  rcases h with ⟨e, he, hpm⟩
  rw [← hpm]
  exact mem_valid_of_pair (List.mem_of_find?_eq_some he)

theorem configFileProbe_mem {fs : Fs} {wd : String} {pm : PackageManager}
    (h : configFileProbe fs wd = some pm) : pm ∈ validDescriptors := by
  rw [configFileProbe, Option.map_eq_some'] at h
  rcases h with ⟨e, he, hpm⟩
  rw [← hpm]
  exact mem_valid_of_pair (List.mem_of_find?_eq_some he)

theorem manifestFieldProbe_mem {fs : Fs} {wd : String} {pm : PackageManager}
    (h : manifestFieldProbe fs wd = some pm) : pm ∈ validDescriptors := by
  rw [manifestFieldProbe] at h
  repeat' split at h
  all_goals try exact Option.noConfusion h
  all_goals
    rw [Option.map_eq_some'] at h
    rcases h with ⟨e, he, hpm⟩
    rw [← hpm]
    exact mem_valid_of_pair (List.mem_of_find?_eq_some he)

theorem envHintProbe_mem {sys : SysEnv} {pm : PackageManager}
    (h : envHintProbe sys = some pm) : pm ∈ validDescriptors := by
  rw [envHintProbe] at h
  repeat' split at h
  all_goals try exact Option.noConfusion h
  all_goals
    rw [← Option.some.inj h]
    simp [validDescriptors]

theorem pickPreferred_mem {prefs : List String}
    {avail : List (String × PackageManager)} {pm : PackageManager}
    (h : pickPreferred prefs avail = some pm) : ∃ e ∈ avail, e.2 = pm := by
  induction prefs with
  | nil => exact absurd h (by simp [pickPreferred])
  | cons preferred rest ih =>
      rw [pickPreferred] at h
      split at h
      · simp only [Option.some.injEq] at h
        rename_i found hfound
        exact ⟨found, List.mem_of_find?_eq_some hfound, h⟩
      · exact ih h

theorem availabilityProbe_mem {sys : SysEnv} {pm : PackageManager}
    (h : availabilityProbe sys = some pm) : pm ∈ validDescriptors := by
  rw [availabilityProbe] at h
  rcases pickPreferred_mem h with ⟨e, he, hpm⟩
  rw [← hpm]
  exact mem_valid_of_pair (List.mem_of_mem_filter he)

theorem fallThrough_mem (sys : SysEnv) : fallThrough sys ∈ validDescriptors := by
  rw [fallThrough]
  split
  · exact envHintProbe_mem (by assumption)
  · split
    · exact availabilityProbe_mem (by assumption)
    · simp [validDescriptors]

theorem detectPackageManager_mem (fs : Fs) (sys : SysEnv)
    (projectPath? : Option String) :
    detectPackageManager fs sys projectPath? ∈ validDescriptors := by
  rw [detectPackageManager]
  split
  · exact lockFileProbe_mem (by assumption)
  · split
    · exact configFileProbe_mem (by assumption)
    · split
      · exact manifestFieldProbe_mem (by assumption)
      · split
        · exact envHintProbe_mem (by assumption)
        · split
          · exact availabilityProbe_mem (by assumption)
          · simp [validDescriptors]


/-! ### Helper lemmas: cascade order -/

theorem detect_of_lockProbe {fs : Fs} {sys : SysEnv} {wd : String}
    {pm : PackageManager} (h : lockFileProbe fs wd = some pm) :
    detectPackageManager fs sys (some wd) = pm := by
  simp [detectPackageManager, h]

theorem detect_fallThrough {fs : Fs} {sys : SysEnv} {wd : String}
    (h1 : lockFileProbe fs wd = none) (h2 : configFileProbe fs wd = none)
    (h3 : manifestFieldProbe fs wd = none) :
    detectPackageManager fs sys (some wd) = fallThrough sys := by
  simp [detectPackageManager, fallThrough, h1, h2, h3]

theorem lockFileProbe_none {fs : Fs} {wd : String}
    (h1 : existsSync fs (pathJoin wd "package-lock.json") = false)
    (h2 : existsSync fs (pathJoin wd "pnpm-lock.yaml") = false)
    (h3 : existsSync fs (pathJoin wd "yarn.lock") = false)
    (h4 : existsSync fs (pathJoin wd "bun.lockb") = false) :
    lockFileProbe fs wd = none := by
  simp [lockFileProbe, PACKAGE_MANAGERS, npm, pnpm, yarn, bun,
    List.find?_cons, h1, h2, h3, h4]

theorem configFileProbe_none {fs : Fs} {wd : String}
    (h1 : existsSync fs (pathJoin wd ".pnpmrc") = false)
    (h2 : existsSync fs (pathJoin wd ".yarnrc.yml") = false) :
    configFileProbe fs wd = none := by
  simp [configFileProbe, PACKAGE_MANAGERS, npm, pnpm, yarn, bun,
    List.find?_cons, h1, h2]

theorem manifestFieldProbe_none_noFile {fs : Fs} {wd : String}
    (h : existsSync fs (pathJoin wd "package.json") = false) :
    manifestFieldProbe fs wd = none := by
  simp [manifestFieldProbe, h]

/-! ### Helper lemmas: the filesystem exactly as left by the creation
steps -/

/-- The project filesystem right before `createPackageJson` writes the
manifest: initial `mkdirSync`, skeleton, template files. -/
def fsPre (fs0 : Fs) (name : String) (useJS : Bool) : Fs :=
  copyTemplateFiles name "basic" useJS
    (createProjectStructure name (mkdirSync fs0 name))

theorem existsSync_write_of {fs : Fs} {p q : String} {d : FileData}
    (hq : existsSync fs q = false) (hne : (q == p) = false) :
    existsSync (writeFileSync fs p d) q = false := by
  simp [existsSync_write, hq, hne]

theorem existsSync_mkdirBase_of {fs0 : Fs} {name : String}
    (h : cleanFor fs0 name) (f : String) :
    existsSync (mkdirSync fs0 name) (pathJoin name f) = false := by
  simp [existsSync_mkdir, existsSync_clean h, pathJoin_beq_base]

theorem existsSync_structure_of {projectPath f : String} {fs : Fs}
    (hf : existsSync fs (pathJoin projectPath f) = false)
    (h1 : (f == "src") = false) (h2 : (f == "src/routes") = false)
    (h3 : (f == "src/middleware") = false) (h4 : (f == "src/utils") = false)
    (h5 : (f == "public") = false) :
    existsSync (createProjectStructure projectPath fs)
      (pathJoin projectPath f) = false := by
  simp [createProjectStructure, existsSync_mkdir, pathJoin_beq_pathJoin,
    hf, h1, h2, h3, h4, h5]

theorem existsSync_copyTemplates_of {projectPath f : String} (useJS : Bool)
    {fs : Fs} (hf : existsSync fs (pathJoin projectPath f) = false)
    (h1 : (f == "src/index.ts") = false) (h2 : (f == "src/index.js") = false)
    (h3 : (f == "README.md") = false) (h4 : (f == ".gitignore") = false)
    (h5 : (f == "tsconfig.json") = false) (h6 : (f == "src") = false) :
    existsSync (copyTemplateFiles projectPath "basic" useJS fs)
      (pathJoin projectPath f) = false := by
  cases useJS <;>
    simp [copyTemplateFiles, getTemplateFiles, existsSync_write,
      existsSync_mkdir, dirname_index_ts, dirname_index_js, dirname_readme,
      dirname_gitignore, dirname_tsconfig, pathJoin_beq_base,
      pathJoin_beq_pathJoin, hf, h1, h2, h3, h4, h5, h6]

theorem fsPre_no_file {fs0 : Fs} {name : String} (h : cleanFor fs0 name)
    (useJS : Bool) (f : String)
    (h1 : (f == "src") = false) (h2 : (f == "src/routes") = false)
    (h3 : (f == "src/middleware") = false) (h4 : (f == "src/utils") = false)
    (h5 : (f == "public") = false)
    (h6 : (f == "src/index.ts") = false) (h7 : (f == "src/index.js") = false)
    (h8 : (f == "README.md") = false) (h9 : (f == ".gitignore") = false)
    (h10 : (f == "tsconfig.json") = false) :
    existsSync (fsPre fs0 name useJS) (pathJoin name f) = false := by
  exact existsSync_copyTemplates_of useJS
    (existsSync_structure_of (existsSync_mkdirBase_of h f) h1 h2 h3 h4 h5)
    h6 h7 h8 h9 h10 h1

theorem lockFileProbe_fsPre {fs0 : Fs} {name : String}
    (h : cleanFor fs0 name) (useJS : Bool) :
    lockFileProbe (fsPre fs0 name useJS) name = none :=
  lockFileProbe_none
    (fsPre_no_file h useJS "package-lock.json" rfl rfl rfl rfl rfl rfl rfl
      rfl rfl rfl)
    (fsPre_no_file h useJS "pnpm-lock.yaml" rfl rfl rfl rfl rfl rfl rfl rfl
      rfl rfl)
    (fsPre_no_file h useJS "yarn.lock" rfl rfl rfl rfl rfl rfl rfl rfl rfl
      rfl)
    (fsPre_no_file h useJS "bun.lockb" rfl rfl rfl rfl rfl rfl rfl rfl rfl
      rfl)

theorem configFileProbe_fsPre {fs0 : Fs} {name : String}
    (h : cleanFor fs0 name) (useJS : Bool) :
    configFileProbe (fsPre fs0 name useJS) name = none :=
  configFileProbe_none
    (fsPre_no_file h useJS ".pnpmrc" rfl rfl rfl rfl rfl rfl rfl rfl rfl rfl)
    (fsPre_no_file h useJS ".yarnrc.yml" rfl rfl rfl rfl rfl rfl rfl rfl rfl
      rfl)

theorem manifestFieldProbe_fsPre {fs0 : Fs} {name : String}
    (h : cleanFor fs0 name) (useJS : Bool) :
    manifestFieldProbe (fsPre fs0 name useJS) name = none :=
  manifestFieldProbe_none_noFile
    (fsPre_no_file h useJS "package.json" rfl rfl rfl rfl rfl rfl rfl rfl
      rfl rfl)

/-- First resolver call of a clean-start creation run: every directory
probe misses, resolution falls through to the environment, availability
and default probes. -/
theorem detect_fsPre {fs0 : Fs} {name : String} (h : cleanFor fs0 name)
    (useJS : Bool) (sys : SysEnv) :
    detectPackageManager (fsPre fs0 name useJS) sys (some name) =
      fallThrough sys :=
  detect_fallThrough (lockFileProbe_fsPre h useJS)
    (configFileProbe_fsPre h useJS) (manifestFieldProbe_fsPre h useJS)


theorem lockFileProbe_fsPost {fs0 : Fs} {name : String}
    (h : cleanFor fs0 name) (useJS : Bool) (d : FileData) :
    lockFileProbe
      (writeFileSync (fsPre fs0 name useJS) (pathJoin name "package.json") d)
      name = none :=
  lockFileProbe_none
    (existsSync_write_of
      (fsPre_no_file h useJS "package-lock.json" rfl rfl rfl rfl rfl rfl rfl
        rfl rfl rfl) (by simp [pathJoin_beq_pathJoin]))
    (existsSync_write_of
      (fsPre_no_file h useJS "pnpm-lock.yaml" rfl rfl rfl rfl rfl rfl rfl
        rfl rfl rfl) (by simp [pathJoin_beq_pathJoin]))
    (existsSync_write_of
      (fsPre_no_file h useJS "yarn.lock" rfl rfl rfl rfl rfl rfl rfl rfl rfl
        rfl) (by simp [pathJoin_beq_pathJoin]))
    (existsSync_write_of
      (fsPre_no_file h useJS "bun.lockb" rfl rfl rfl rfl rfl rfl rfl rfl rfl
        rfl) (by simp [pathJoin_beq_pathJoin]))

theorem configFileProbe_fsPost {fs0 : Fs} {name : String}
    (h : cleanFor fs0 name) (useJS : Bool) (d : FileData) :
    configFileProbe
      (writeFileSync (fsPre fs0 name useJS) (pathJoin name "package.json") d)
      name = none :=
  configFileProbe_none
    (existsSync_write_of
      (fsPre_no_file h useJS ".pnpmrc" rfl rfl rfl rfl rfl rfl rfl rfl rfl
        rfl) (by simp [pathJoin_beq_pathJoin]))
    (existsSync_write_of
      (fsPre_no_file h useJS ".yarnrc.yml" rfl rfl rfl rfl rfl rfl rfl rfl
        rfl rfl) (by simp [pathJoin_beq_pathJoin]))

/-- Second resolver call of a clean-start creation run: the freshly
written manifest is now visible to the manifest-field probe.  When the
first resolution pinned a non-default manager the probe returns that very
manager; when it resolved `npm` there is no pin and resolution falls
through to the same environment-dependent tail — either way the second
call returns the same descriptor as the first. -/
theorem detect_after_manifest {fs0 : Fs} {name : String}
    (h : cleanFor fs0 name) (useJS : Bool) (sys : SysEnv)
    (pname : String) (opts : CreateOptions) :
    detectPackageManager
      (writeFileSync (fsPre fs0 name useJS) (pathJoin name "package.json")
        (FileData.manifest (buildPackageJson pname (fallThrough sys) opts)))
      sys (some name) = fallThrough sys := by
  have hlock := lockFileProbe_fsPost h useJS
    (d := FileData.manifest (buildPackageJson pname (fallThrough sys) opts))
  have hconf := configFileProbe_fsPost h useJS
    (d := FileData.manifest (buildPackageJson pname (fallThrough sys) opts))
  have hmem := fallThrough_mem sys
  rw [validDescriptors] at hmem
  simp only [List.mem_cons, List.not_mem_nil, or_false] at hmem
  have hex : existsSync
      (writeFileSync (fsPre fs0 name useJS) (pathJoin name "package.json")
        (FileData.manifest (buildPackageJson pname (fallThrough sys) opts)))
      (pathJoin name "package.json") = true := by
    simp [existsSync_write]
  have hread := readFile_write_self (fsPre fs0 name useJS)
    (pathJoin name "package.json")
    (FileData.manifest (buildPackageJson pname (fallThrough sys) opts))
  rcases hmem with h1 | h1 | h1 | h1
  · have hman : manifestFieldProbe
        (writeFileSync (fsPre fs0 name useJS) (pathJoin name "package.json")
          (FileData.manifest (buildPackageJson pname (fallThrough sys) opts)))
        name = none := by
      rw [manifestFieldProbe, if_pos hex, hread, h1]
      simp [buildPackageJson, npm]
    rw [detect_fallThrough hlock hconf hman]
  · have hman : manifestFieldProbe
        (writeFileSync (fsPre fs0 name useJS) (pathJoin name "package.json")
          (FileData.manifest (buildPackageJson pname (fallThrough sys) opts)))
        name = some pnpm := by
      rw [manifestFieldProbe, if_pos hex, hread, h1]
      have hfind : PACKAGE_MANAGERS.find?
          (fun e => e.1 == splitFirstAt "pnpm@latest") =
            some ("pnpm", pnpm) := rfl
      simp [buildPackageJson, pnpm, hfind]
    rw [h1] at hlock hconf hman
    rw [h1, detectPackageManager]
    simp [hlock, hconf, hman]
  · have hman : manifestFieldProbe
        (writeFileSync (fsPre fs0 name useJS) (pathJoin name "package.json")
          (FileData.manifest (buildPackageJson pname (fallThrough sys) opts)))
        name = some yarn := by
      rw [manifestFieldProbe, if_pos hex, hread, h1]
      have hfind : PACKAGE_MANAGERS.find?
          (fun e => e.1 == splitFirstAt "yarn@latest") =
            some ("yarn", yarn) := rfl
      simp [buildPackageJson, yarn, hfind]
    rw [h1] at hlock hconf hman
    rw [h1, detectPackageManager]
    simp [hlock, hconf, hman]
  · have hman : manifestFieldProbe
        (writeFileSync (fsPre fs0 name useJS) (pathJoin name "package.json")
          (FileData.manifest (buildPackageJson pname (fallThrough sys) opts)))
        name = some bun := by
      rw [manifestFieldProbe, if_pos hex, hread, h1]
      have hfind : PACKAGE_MANAGERS.find?
          (fun e => e.1 == splitFirstAt "bun@latest") =
            some ("bun", bun) := rfl
      simp [buildPackageJson, bun, hfind]
    rw [h1] at hlock hconf hman
    rw [h1, detectPackageManager]
    simp [hlock, hconf, hman]


/-! ### Helper lemmas: the try block and the whole run -/

theorem tryCreate_failed_eq (pp pn : String) (o : CreateOptions) (fs : Fs)
    (sys : SysEnv) (w : World) :
    (tryCreate pp pn o fs sys w).failed =
      (w.structureFails || w.templateFails || w.manifestFails ||
        !w.installOk) := by
  rcases w with ⟨s, t, m, i⟩
  cases s <;> cases t <;> cases m <;>
    simp [tryCreate, installDependencies]

theorem tryCreate_exists (pp pn : String) (o : CreateOptions) (fs : Fs)
    (sys : SysEnv) (w : World) (h : existsSync fs pp = true) :
    existsSync (tryCreate pp pn o fs sys w).fs pp = true := by
  have hstep1 : existsSync (createProjectStructure pp fs) pp = true := by
    simp [createProjectStructure, existsSync_mkdir, h]
  have hstep2 : existsSync
      (copyTemplateFiles pp "basic" o.javascript
        (createProjectStructure pp fs)) pp = true := by
    cases hj : o.javascript <;>
      simp [copyTemplateFiles, getTemplateFiles, existsSync_write,
        existsSync_mkdir, hstep1]
  rcases w with ⟨s, t, m, i⟩
  cases s <;> cases t <;> cases m <;>
    simp [tryCreate, createPackageJson, existsSync_write, h, hstep1, hstep2]

theorem tryCreate_clean_success {fs0 : Fs} {projectName : String}
    (options : CreateOptions) (sys : SysEnv) (w : World)
    (hclean : cleanFor fs0 projectName)
    (hs : w.structureFails = false) (ht : w.templateFails = false)
    (hm : w.manifestFails = false) :
    tryCreate projectName projectName options (mkdirSync fs0 projectName)
        sys w =
      ⟨writeFileSync (fsPre fs0 projectName options.javascript)
          (pathJoin projectName "package.json")
          (FileData.manifest
            (buildPackageJson projectName (fallThrough sys) options)),
        [fallThrough sys, fallThrough sys],
        [Event.chdir projectName,
         Event.exec (fallThrough sys).installCommand projectName w.installOk,
         Event.chdir sys.cwd],
        sys, !w.installOk⟩ := by
  have hpm1 := detect_fsPre hclean options.javascript sys
  have hpm2 := detect_after_manifest hclean options.javascript sys
    projectName options
  rw [fsPre] at hpm1 hpm2
  simp only [tryCreate, hs, ht, hm, Bool.false_eq_true, if_false,
    createPackageJson, installDependencies, hpm1, hpm2]
  rw [fsPre]


/-- When the resolved project path already exists, `createProject` reports
and exits before performing any filesystem operation. -/
theorem createProject_exists_abort {projectName : String} {fs0 : Fs}
    (options : CreateOptions) (sys : SysEnv) (w : World)
    (h : existsSync fs0 projectName = true) :
    createProject projectName options fs0 sys w = ⟨fs0, sys, some 1, [], []⟩ := by
  rw [createProject]
  simp [h]

/-! ### Claim theorems -/

/-- C1: for every creation run on a fresh path, if any step after the
initial directory creation fails (structure creation, template emission,
manifest construction, or the install subprocess), the run exits with a
non-zero status and recursively deletes the project directory: no path at
or below the project path remains. -/
theorem createProject_rollback_on_failure (projectName : String)
    (options : CreateOptions) (fs0 : Fs) (sys : SysEnv) (w : World)
    (hnew : existsSync fs0 projectName = false)
    (hfail : w.structureFails = true ∨ w.templateFails = true ∨
      w.manifestFails = true ∨ w.installOk = false) :
    (createProject projectName options fs0 sys w).exitCode = some 1 ∧
    ∀ p, underPath projectName p = true →
      existsSync (createProject projectName options fs0 sys w).fs p = false := by
  have hex : existsSync (mkdirSync fs0 projectName) projectName = true := by
    simp [existsSync_mkdir]
  have htex := tryCreate_exists projectName projectName options
    (mkdirSync fs0 projectName) sys w hex
  have hfailed : (tryCreate projectName projectName options
      (mkdirSync fs0 projectName) sys w).failed = true := by
    rw [tryCreate_failed_eq]
    rcases hfail with h | h | h | h <;> simp [h]
  rw [createProject]
  simp only [hnew, Bool.false_eq_true, if_false, hfailed, if_true, htex]
  exact ⟨trivial, fun p hp => existsSync_rm_under _ hp⟩

/-- C1 witness: an install failure on a fresh `demo` project exits 1 and
leaves no `demo` entry behind. -/
theorem createProject_rollback_on_failure_witness :
    (createProject "demo" ⟨true, false⟩ ⟨[]⟩ ⟨"/work", none, []⟩
        ⟨false, false, false, false⟩).exitCode = some 1 ∧
    existsSync (createProject "demo" ⟨true, false⟩ ⟨[]⟩ ⟨"/work", none, []⟩
        ⟨false, false, false, false⟩).fs "demo" = false := by
  have h := createProject_rollback_on_failure "demo" ⟨true, false⟩ ⟨[]⟩
    ⟨"/work", none, []⟩ ⟨false, false, false, false⟩ (by decide)
    (Or.inr (Or.inr (Or.inr rfl)))
  exact ⟨h.1, h.2 "demo" (by decide)⟩

/-- C2: invoking creation with the name of an existing directory exits
with a non-zero status and performs no filesystem writes and no cleanup:
the filesystem, process state, resolver-call list and event list are all
untouched. -/
theorem createProject_existing_directory (projectName : String)
    (options : CreateOptions) (fs0 : Fs) (sys : SysEnv) (w : World)
    (hdir : (projectName, FsEntryData.dir) ∈ fs0.entries) :
    (createProject projectName options fs0 sys w).exitCode = some 1 ∧
    (createProject projectName options fs0 sys w).fs = fs0 ∧
    (createProject projectName options fs0 sys w).resolutions = [] ∧
    (createProject projectName options fs0 sys w).events = [] ∧
    (createProject projectName options fs0 sys w).sys = sys := by
  rw [createProject_exists_abort options sys w (existsSync_mem hdir)]
  exact ⟨rfl, rfl, rfl, rfl, rfl⟩

/-- C2 witness: creating `demo` over an existing `demo` directory. -/
theorem createProject_existing_directory_witness :
    (createProject "demo" ⟨true, false⟩ ⟨[("demo", FsEntryData.dir)]⟩
        ⟨"/work", none, []⟩ ⟨false, false, false, true⟩).exitCode = some 1 ∧
    (createProject "demo" ⟨true, false⟩ ⟨[("demo", FsEntryData.dir)]⟩
        ⟨"/work", none, []⟩ ⟨false, false, false, true⟩).fs =
      ⟨[("demo", FsEntryData.dir)]⟩ := by
  have h := createProject_existing_directory "demo" ⟨true, false⟩
    ⟨[("demo", FsEntryData.dir)]⟩ ⟨"/work", none, []⟩
    ⟨false, false, false, true⟩ (by simp)
  exact ⟨h.1, h.2.1⟩

/-- C9: the existence check rejects any entry at the project path, file or
directory alike — the conclusion of C2 holds for an arbitrary entry kind
at the resolved path. -/
theorem createProject_existing_entry_any_kind (projectName : String)
    (options : CreateOptions) (fs0 : Fs) (sys : SysEnv) (w : World)
    (d : FsEntryData) (hent : (projectName, d) ∈ fs0.entries) :
    (createProject projectName options fs0 sys w).exitCode = some 1 ∧
    (createProject projectName options fs0 sys w).fs = fs0 ∧
    (createProject projectName options fs0 sys w).resolutions = [] ∧
    (createProject projectName options fs0 sys w).events = [] ∧
    (createProject projectName options fs0 sys w).sys = sys := by
  rw [createProject_exists_abort options sys w (existsSync_mem hent)]
  exact ⟨rfl, rfl, rfl, rfl, rfl⟩

/-- C9 witness: a plain file named `demo` also blocks creation of project
`demo`, untouched filesystem included. -/
theorem createProject_existing_entry_any_kind_witness :
    (createProject "demo" ⟨true, false⟩
        ⟨[("demo", FsEntryData.file (FileData.text "x"))]⟩
        ⟨"/work", none, []⟩ ⟨false, false, false, true⟩).exitCode = some 1 ∧
    (createProject "demo" ⟨true, false⟩
        ⟨[("demo", FsEntryData.file (FileData.text "x"))]⟩
        ⟨"/work", none, []⟩ ⟨false, false, false, true⟩).fs =
      ⟨[("demo", FsEntryData.file (FileData.text "x"))]⟩ := by
  have h := createProject_existing_entry_any_kind "demo" ⟨true, false⟩
    ⟨[("demo", FsEntryData.file (FileData.text "x"))]⟩ ⟨"/work", none, []⟩
    ⟨false, false, false, true⟩ (FsEntryData.file (FileData.text "x"))
    (by simp)
  exact ⟨h.1, h.2.1⟩


/-- C3: `detectPackageManager` is total — it always returns one of the
four fixed descriptors — and on a fresh directory (no lock file, no
config file, no manifest), with no user-agent hint and no manager
available, it returns the default `npm` descriptor. -/
theorem detectPackageManager_total_and_default :
    (∀ (fs : Fs) (sys : SysEnv) (projectPath? : Option String),
      detectPackageManager fs sys projectPath? ∈ validDescriptors) ∧
    (∀ (fs : Fs) (sys : SysEnv) (dir : String),
      (∀ f : String, existsSync fs (pathJoin dir f) = false) →
      sys.userAgent = none → sys.available = [] →
      detectPackageManager fs sys (some dir) = npm) := by
  refine ⟨detectPackageManager_mem, ?_⟩
  intro fs sys dir hfresh hua hav
  have h1 : lockFileProbe fs dir = none :=
    lockFileProbe_none (hfresh _) (hfresh _) (hfresh _) (hfresh _)
  have h2 : configFileProbe fs dir = none :=
    configFileProbe_none (hfresh _) (hfresh _)
  have h3 : manifestFieldProbe fs dir = none :=
    manifestFieldProbe_none_noFile (hfresh _)
  rw [detect_fallThrough h1 h2 h3, fallThrough]
  simp [envHintProbe, hua, availabilityProbe, hav, PACKAGE_MANAGERS,
    pickPreferred, preferenceOrder]

/-- C3 witness: an empty filesystem, empty environment and no available
managers resolve to `npm`. -/
theorem detectPackageManager_total_and_default_witness :
    detectPackageManager ⟨[]⟩ ⟨"/work", none, []⟩ (some "demo") ∈
      validDescriptors ∧
    detectPackageManager ⟨[]⟩ ⟨"/work", none, []⟩ (some "demo") = npm :=
  ⟨detectPackageManager_total_and_default.1 ⟨[]⟩ ⟨"/work", none, []⟩
      (some "demo"),
    detectPackageManager_total_and_default.2 ⟨[]⟩ ⟨"/work", none, []⟩ "demo"
      (fun f => rfl) rfl rfl⟩

/-- C4: the lock-file probe runs before the config-file probe: a directory
holding the (unique) lock file of manager `M` and the config file of a
different manager resolves to `M`, whatever the rest of the environment;
and in general a successful lock-file probe decides resolution outright. -/
theorem detect_lock_file_beats_config (fs : Fs) (sys : SysEnv) (dir : String)
    (M Mc : String × PackageManager) (cf : String)
    (hM : M ∈ PACKAGE_MANAGERS) (hMc : Mc ∈ PACKAGE_MANAGERS)
    (hne : M.2 ≠ Mc.2)
    (hlock : existsSync fs (pathJoin dir M.2.lockFile) = true)
    (honly : ∀ e ∈ PACKAGE_MANAGERS, e.2.lockFile ≠ M.2.lockFile →
      existsSync fs (pathJoin dir e.2.lockFile) = false)
    (hcf : Mc.2.configFile = some cf)
    (hcfex : existsSync fs (pathJoin dir cf) = true) :
    detectPackageManager fs sys (some dir) = M.2 ∧
    (∀ (fs2 : Fs) (sys2 : SysEnv) (dir2 : String) (pm : PackageManager),
      lockFileProbe fs2 dir2 = some pm →
      detectPackageManager fs2 sys2 (some dir2) = pm) := by
  refine ⟨?_, fun fs2 sys2 dir2 pm hp => detect_of_lockProbe hp⟩
  apply detect_of_lockProbe
  simp only [PACKAGE_MANAGERS, List.mem_cons, List.not_mem_nil, or_false]
    at hM
  rcases hM with h | h | h | h <;> subst h
  · have e1 : existsSync fs (pathJoin dir "package-lock.json") = true := hlock
    simp [lockFileProbe, PACKAGE_MANAGERS, List.find?_cons, npm, e1]
  · have e0 : existsSync fs (pathJoin dir "package-lock.json") = false :=
      honly ("npm", npm) (by simp [PACKAGE_MANAGERS]) (by decide)
    have e1 : existsSync fs (pathJoin dir "pnpm-lock.yaml") = true := hlock
    simp [lockFileProbe, PACKAGE_MANAGERS, List.find?_cons, npm, pnpm, e0, e1]
  · have e0 : existsSync fs (pathJoin dir "package-lock.json") = false :=
      honly ("npm", npm) (by simp [PACKAGE_MANAGERS]) (by decide)
    have e0b : existsSync fs (pathJoin dir "pnpm-lock.yaml") = false :=
      honly ("pnpm", pnpm) (by simp [PACKAGE_MANAGERS]) (by decide)
    have e1 : existsSync fs (pathJoin dir "yarn.lock") = true := hlock
    simp [lockFileProbe, PACKAGE_MANAGERS, List.find?_cons, npm, pnpm, yarn,
      e0, e0b, e1]
  · have e0 : existsSync fs (pathJoin dir "package-lock.json") = false :=
      honly ("npm", npm) (by simp [PACKAGE_MANAGERS]) (by decide)
    have e0b : existsSync fs (pathJoin dir "pnpm-lock.yaml") = false :=
      honly ("pnpm", pnpm) (by simp [PACKAGE_MANAGERS]) (by decide)
    have e0c : existsSync fs (pathJoin dir "yarn.lock") = false :=
      honly ("yarn", yarn) (by simp [PACKAGE_MANAGERS]) (by decide)
    have e1 : existsSync fs (pathJoin dir "bun.lockb") = true := hlock
    simp [lockFileProbe, PACKAGE_MANAGERS, List.find?_cons, npm, pnpm, yarn,
      bun, e0, e0b, e0c, e1]

/-- C4 witness: `proj` holding `yarn.lock` and pnpm's `.pnpmrc` resolves
to yarn. -/
theorem detect_lock_file_beats_config_witness :
    detectPackageManager
      ⟨[("proj/yarn.lock", FsEntryData.file (FileData.text "")),
        ("proj/.pnpmrc", FsEntryData.file (FileData.text ""))]⟩
      ⟨"/work", none, []⟩ (some "proj") = yarn := by
  have h := detect_lock_file_beats_config
    ⟨[("proj/yarn.lock", FsEntryData.file (FileData.text "")),
      ("proj/.pnpmrc", FsEntryData.file (FileData.text ""))]⟩
    ⟨"/work", none, []⟩ "proj" ("yarn", yarn) ("pnpm", pnpm) ".pnpmrc"
    (by simp [PACKAGE_MANAGERS]) (by simp [PACKAGE_MANAGERS]) (by decide)
    (by decide) (by decide) rfl (by decide)
  exact h.1


/-- Javascript-mode template emission never touches `tsconfig.json`. -/
theorem existsSync_copyTemplates_js_of {projectPath f : String} {fs : Fs}
    (hf : existsSync fs (pathJoin projectPath f) = false)
    (h2 : (f == "src/index.js") = false) (h3 : (f == "README.md") = false)
    (h4 : (f == ".gitignore") = false) (h6 : (f == "src") = false) :
    existsSync (copyTemplateFiles projectPath "basic" true fs)
      (pathJoin projectPath f) = false := by
  simp [copyTemplateFiles, getTemplateFiles, existsSync_write,
    existsSync_mkdir, dirname_index_js, dirname_readme, dirname_gitignore,
    pathJoin_beq_base, pathJoin_beq_pathJoin, hf, h2, h3, h4, h6]

theorem fsPre_js_no_tsconfig {fs0 : Fs} {name : String}
    (h : cleanFor fs0 name) :
    existsSync (fsPre fs0 name true) (pathJoin name "tsconfig.json") =
      false := by
  rw [fsPre]
  exact existsSync_copyTemplates_js_of
    (existsSync_structure_of (existsSync_mkdirBase_of h _) rfl rfl rfl rfl
      rfl) rfl rfl rfl rfl

/-- C6: in typed mode with the bun manager, the generated manifest has no
`ts-node-dev` dev-dependency and its `dev` script is bun's native watch
invocation, both at the manifest level and at the generator level. -/
theorem bun_typed_manifest (projectName : String) (tsFlag : Bool) :
    ((buildPackageJson projectName bun ⟨tsFlag, false⟩).devDependencies.all
      (fun e => e.1 != "ts-node-dev")) = true ∧
    List.lookup "dev" (buildPackageJson projectName bun
      ⟨tsFlag, false⟩).scripts = some "bun run --watch src/index.ts" ∧
    ((generateScripts bun true).all
      (fun e => e.2 != "ts-node-dev --respawn --transpile-only src/index.ts"))
      = true ∧
    ((generateDevDependencies bun true).all
      (fun e => e.1 != "ts-node-dev")) = true ∧
    List.lookup "dev" (generateScripts bun true) =
      some "bun run --watch src/index.ts" :=
  ⟨rfl, rfl, rfl, rfl, rfl⟩

/-- C7: in untyped mode the generated dev-dependency map is empty
(whatever the resolved manager) and no `tsconfig.json` is ever written
into the project directory — neither in the template list nor on the
filesystem of a completed or rolled-back run. -/
theorem untyped_no_devdeps_no_tsconfig (pm : PackageManager)
    (template projectName : String) (options : CreateOptions) (fs0 : Fs)
    (sys : SysEnv) (w : World) :
    generateDevDependencies pm false = [] ∧
    ((getTemplateFiles template "js").all
      (fun e => e.1 != "tsconfig.json")) = true ∧
    (options.javascript = true →
      (buildPackageJson projectName pm options).devDependencies = []) ∧
    (options.javascript = true → cleanFor fs0 projectName →
      existsSync (createProject projectName options fs0 sys w).fs
        (pathJoin projectName "tsconfig.json") = false) := by
  refine ⟨rfl, rfl, ?_, ?_⟩
  · intro hjs
    simp [buildPackageJson, generateDevDependencies, hjs]
  · intro hjs hclean
    have hnew : existsSync fs0 projectName = false :=
      existsSync_clean_base hclean
    rw [createProject]
    simp only [hnew, Bool.false_eq_true, if_false]
    by_cases hfailed : (tryCreate projectName projectName options
        (mkdirSync fs0 projectName) sys w).failed = true
    · have hex2 : existsSync (mkdirSync fs0 projectName) projectName =
          true := by simp [existsSync_mkdir]
      have htex := tryCreate_exists projectName projectName options
        (mkdirSync fs0 projectName) sys w hex2
      simp only [hfailed, if_true, htex]
      exact existsSync_rm_under _ (by simp [underPath, strStarts_pathJoin])
    · have hfq : (tryCreate projectName projectName options
          (mkdirSync fs0 projectName) sys w).failed = false := by
        cases hx : (tryCreate projectName projectName options
          (mkdirSync fs0 projectName) sys w).failed
        · rfl
        · exact absurd hx hfailed
      have hflags := hfq
      rw [tryCreate_failed_eq] at hflags
      simp only [Bool.or_eq_false_iff, Bool.not_eq_false'] at hflags
      obtain ⟨⟨⟨hs, ht⟩, hm⟩, hi⟩ := hflags
      simp only [hfq]
      rw [if_neg Bool.false_ne_true]
      dsimp only
      rw [tryCreate_clean_success options sys w hclean hs ht hm]
      dsimp only
      rw [hjs]
      exact existsSync_write_of (fsPre_js_no_tsconfig hclean)
        (by simp [pathJoin_beq_pathJoin])

/-- C7 witness: a javascript-mode run of project `app` on a clean
filesystem ends without a `tsconfig.json` in the project directory, and
the generator facts hold for the npm descriptor. -/
theorem untyped_no_devdeps_no_tsconfig_witness :
    generateDevDependencies npm false = [] ∧
    (buildPackageJson "app" npm ⟨false, true⟩).devDependencies = [] ∧
    existsSync (createProject "app" ⟨false, true⟩ ⟨[]⟩ ⟨"/work", none, []⟩
      ⟨false, false, false, true⟩).fs (pathJoin "app" "tsconfig.json") =
      false := by
  have h := untyped_no_devdeps_no_tsconfig npm "basic" "app" ⟨false, true⟩
    ⟨[]⟩ ⟨"/work", none, []⟩ ⟨false, false, false, true⟩
  exact ⟨h.1, h.2.2.1 rfl, h.2.2.2 rfl (by intro e he; simp at he)⟩

/-- C8: `installDependencies` switches the working directory to the
project path, runs the manager's install command there, and its
`finally` block restores the caller's working directory whether the
subprocess succeeded or failed; no other process state is modified, and
the raised flag mirrors the subprocess outcome. -/
theorem installDependencies_scoped_chdir (packageManager : PackageManager)
    (projectPath : String) (sys : SysEnv) (installOk : Bool) :
    (installDependencies packageManager projectPath sys installOk).sys =
      sys ∧
    (installDependencies packageManager projectPath sys installOk).events =
      [Event.chdir projectPath,
       Event.exec packageManager.installCommand projectPath installOk,
       Event.chdir sys.cwd] ∧
    (installDependencies packageManager projectPath sys installOk).raised =
      !installOk :=
  ⟨rfl, rfl, rfl⟩


/-- A directory snapshot holding nothing but a generated manifest: the
probe target of the round-trip claim. -/
def soloManifestFs (dir : String) (pj : PackageJson) : Fs :=
  ⟨[(pathJoin dir "package.json", FsEntryData.file (FileData.manifest pj))]⟩

theorem existsSync_solo (dir : String) (pj : PackageJson) (f : String) :
    existsSync (soloManifestFs dir pj) (pathJoin dir f) =
      (("package.json" : String) == f) := by
  simp [soloManifestFs, existsSync, pathJoin_beq_pathJoin]

theorem solo_lockProbe (dir : String) (pj : PackageJson) :
    lockFileProbe (soloManifestFs dir pj) dir = none :=
  lockFileProbe_none ((existsSync_solo dir pj _).trans rfl)
    ((existsSync_solo dir pj _).trans rfl)
    ((existsSync_solo dir pj _).trans rfl)
    ((existsSync_solo dir pj _).trans rfl)

theorem solo_configProbe (dir : String) (pj : PackageJson) :
    configFileProbe (soloManifestFs dir pj) dir = none :=
  configFileProbe_none ((existsSync_solo dir pj _).trans rfl)
    ((existsSync_solo dir pj _).trans rfl)

theorem solo_exists (dir : String) (pj : PackageJson) :
    existsSync (soloManifestFs dir pj) (pathJoin dir "package.json") =
      true :=
  (existsSync_solo dir pj "package.json").trans rfl

theorem solo_read (dir : String) (pj : PackageJson) :
    readFile (soloManifestFs dir pj) (pathJoin dir "package.json") =
      some (FileData.manifest pj) := by
  simp [soloManifestFs, readFile, List.findSome?_cons]

/-- C10: the manifest pin is always `<name>@latest` (present exactly for
non-npm managers), and it round-trips: probing a directory containing
only a manifest generated with a non-npm descriptor `M` makes the
manifest-field probe — and the whole resolution — return `M` again. -/
theorem manifest_pin_roundtrip (M : PackageManager) (dir mname : String)
    (opts : CreateOptions) (sys : SysEnv)
    (hM : M ∈ validDescriptors) (hnpm : M.name ≠ "npm") :
    (∀ (n : String) (pm : PackageManager) (o : CreateOptions),
      (buildPackageJson n pm o).packageManager =
        if pm.name != "npm" then some (pm.name ++ "@latest") else none) ∧
    manifestFieldProbe (soloManifestFs dir (buildPackageJson mname M opts))
      dir = some M ∧
    detectPackageManager (soloManifestFs dir (buildPackageJson mname M opts))
      sys (some dir) = M := by
  rw [validDescriptors] at hM
  simp only [List.mem_cons, List.not_mem_nil, or_false] at hM
  rcases hM with h | h | h | h <;> subst h
  · exact absurd rfl hnpm
  · have hman : manifestFieldProbe
        (soloManifestFs dir (buildPackageJson mname pnpm opts)) dir =
        some pnpm := by
      rw [manifestFieldProbe, if_pos (solo_exists dir _), solo_read]
      have hfind : PACKAGE_MANAGERS.find?
          (fun e => e.1 == splitFirstAt "pnpm@latest") =
            some ("pnpm", pnpm) := rfl
      simp [buildPackageJson, pnpm, hfind]
    refine ⟨fun n pm o => rfl, hman, ?_⟩
    rw [detectPackageManager]
    simp [solo_lockProbe, solo_configProbe, hman]
  · have hman : manifestFieldProbe
        (soloManifestFs dir (buildPackageJson mname yarn opts)) dir =
        some yarn := by
      rw [manifestFieldProbe, if_pos (solo_exists dir _), solo_read]
      have hfind : PACKAGE_MANAGERS.find?
          (fun e => e.1 == splitFirstAt "yarn@latest") =
            some ("yarn", yarn) := rfl
      simp [buildPackageJson, yarn, hfind]
    refine ⟨fun n pm o => rfl, hman, ?_⟩
    rw [detectPackageManager]
    simp [solo_lockProbe, solo_configProbe, hman]
  · have hman : manifestFieldProbe
        (soloManifestFs dir (buildPackageJson mname bun opts)) dir =
        some bun := by
      rw [manifestFieldProbe, if_pos (solo_exists dir _), solo_read]
      have hfind : PACKAGE_MANAGERS.find?
          (fun e => e.1 == splitFirstAt "bun@latest") =
            some ("bun", bun) := rfl
      simp [buildPackageJson, bun, hfind]
    refine ⟨fun n pm o => rfl, hman, ?_⟩
    rw [detectPackageManager]
    simp [solo_lockProbe, solo_configProbe, hman]

/-- C10 witness: a directory holding only a manifest generated for pnpm
resolves to pnpm again. -/
theorem manifest_pin_roundtrip_witness :
    manifestFieldProbe
      (soloManifestFs "proj" (buildPackageJson "app" pnpm ⟨true, false⟩))
      "proj" = some pnpm ∧
    detectPackageManager
      (soloManifestFs "proj" (buildPackageJson "app" pnpm ⟨true, false⟩))
      ⟨"/work", none, []⟩ (some "proj") = pnpm := by
  have h := manifest_pin_roundtrip pnpm "proj" "app" ⟨true, false⟩
    ⟨"/work", none, []⟩ (by simp [validDescriptors]) (by decide)
  exact ⟨h.2.1, h.2.2⟩


/-- C5 counterexample: on a concrete clean creation run the resolver is
not invoked exactly once — `createProject` records two resolver calls
(one inside `createPackageJson`, one before the install step). -/
theorem resolver_called_once_counterexample :
    ¬ ((createProject "demo" ⟨true, false⟩ ⟨[]⟩ ⟨"/work", none, []⟩
        ⟨false, false, false, true⟩).resolutions.length = 1) := by
  decide

/-- C5 (amended): on every clean-start successful creation run the
resolver is invoked exactly twice, both invocations return the same
descriptor — the fall-through of probes 4–6, since at the first call no
lock file, config file or manifest exists yet, while the second call
(made after the manifest was written) re-reads the pin it just wrote —
and that descriptor parameterizes the written manifest's scripts and
dev-dependencies as well as the install invocation. -/
theorem createProject_resolver_twice (projectName : String)
    (options : CreateOptions) (fs0 : Fs) (sys : SysEnv) (w : World)
    (hclean : cleanFor fs0 projectName)
    (hs : w.structureFails = false) (ht : w.templateFails = false)
    (hm : w.manifestFails = false) (hi : w.installOk = true) :
    (createProject projectName options fs0 sys w).resolutions =
      [fallThrough sys, fallThrough sys] ∧
    (createProject projectName options fs0 sys w).exitCode = none ∧
    readFile (createProject projectName options fs0 sys w).fs
        (pathJoin projectName "package.json") =
      some (FileData.manifest
        (buildPackageJson projectName (fallThrough sys) options)) ∧
    (buildPackageJson projectName (fallThrough sys) options).scripts =
      generateScripts (fallThrough sys) (!options.javascript) ∧
    (buildPackageJson projectName (fallThrough sys) options).devDependencies
      = generateDevDependencies (fallThrough sys) (!options.javascript) ∧
    (createProject projectName options fs0 sys w).events =
      [Event.chdir projectName,
       Event.exec (fallThrough sys).installCommand projectName true,
       Event.chdir sys.cwd] := by
  have hnew : existsSync fs0 projectName = false :=
    existsSync_clean_base hclean
  have htc := tryCreate_clean_success options sys w hclean hs ht hm
  have hfq : (tryCreate projectName projectName options
      (mkdirSync fs0 projectName) sys w).failed = false := by
    rw [htc, hi]
    rfl
  rw [createProject]
  simp only [hnew, Bool.false_eq_true, if_false, hfq]
  rw [htc, hi]
  exact ⟨rfl, trivial, readFile_write_self _ _ _, rfl, rfl, rfl⟩

/-- C5 amended witness: the concrete clean `demo` run resolves twice to
the same descriptor and completes normally. -/
theorem createProject_resolver_twice_witness :
    (createProject "demo" ⟨true, false⟩ ⟨[]⟩ ⟨"/work", none, []⟩
        ⟨false, false, false, true⟩).resolutions =
      [fallThrough ⟨"/work", none, []⟩, fallThrough ⟨"/work", none, []⟩] ∧
    (createProject "demo" ⟨true, false⟩ ⟨[]⟩ ⟨"/work", none, []⟩
        ⟨false, false, false, true⟩).exitCode = none := by
  have h := createProject_resolver_twice "demo" ⟨true, false⟩ ⟨[]⟩
    ⟨"/work", none, []⟩ ⟨false, false, false, true⟩
    (by intro e he; simp at he) rfl rfl rfl rfl
  exact ⟨h.1, h.2.1⟩

end CreateAtomik
